import Mathlib

/-!
# LIN stack (`lin_stack.cpp`, `lin_stack.h`): shallow embedding and verification

Conventions of the embedding.

* A `byte` is a natural number below 256 and an `unsigned int` one below `UINT_MOD`
  (16-bit `unsigned int`: the Arduino Nano that the source header names; every size bound
  stated below also holds for a 32-bit `unsigned int`).  Byte values that are handed in
  (identifier, array contents) are taken to be in range; every arithmetic result the source
  stores in a `byte` or an `unsigned int` is reduced explicitly, and so is every size argument,
  since sizes drive the loops.
* A C array argument is a `List Nat`; `data[i]` is `data.getD i 0` and `data[i] = v` is
  `data.set i v`.  Theorems that depend on an access being in bounds say so in a hypothesis.
* The hardware (pins, delays, the transmit side of `Serial`) is a trace of `Event`s in program
  order.  The receive side of `Serial` is the queue `rx` of pending bytes, oldest first, as the
  call finds it; bytes that arrive while `readBytes` waits count as queued behind them.
* An uninitialised local array is read through a function `garbage : Nat → Nat` giving the
  previous content of its cells.
-/

/-- Modulus of `unsigned int` arithmetic (16 bits on the AVR target). -/
def UINT_MOD : Nat := 65536

/-- Arduino pin modes. -/
inductive PinMode where
  | INPUT
  | OUTPUT
deriving DecidableEq

/-- Arduino pin levels. -/
inductive Level where
  | LOW
  | HIGH
deriving DecidableEq

/-- Observable effects of the stack on the hardware, one constructor per Arduino primitive that
the source calls. -/
inductive Event where
  | pinMode (pin : Nat) (mode : PinMode)
  | digitalWrite (pin : Nat) (level : Level)
  | delayMicroseconds (us : Nat)
  | Serial_begin (baud : Nat)
  | Serial_write (b : Nat)
  | Serial_end
  | Serial_read
  | Serial_readBytes (length : Nat)
deriving DecidableEq

/-- The bytes handed to `Serial.write`, in the order of the trace. -/
def sent (trace : List Event) : List Nat :=
  trace.filterMap fun e =>
    match e with
    | Event.Serial_write b => some b
    | _ => none

/-- The level of the transceiver control line (pin 2) that a trace leaves behind: the last level
written to that pin, `none` when the trace never writes it. -/
def controlLine (trace : List Event) : Option Level :=
  trace.foldl (fun level e =>
    match e with
    | Event.digitalWrite 2 l => some l
    | _ => level) none

/-- Arduino `Serial.read()`: the first pending byte, removed from the queue, or `-1` when nothing
is pending. -/
def Serial_read (rx : List Nat) : Int × List Nat :=
  match rx with
  | [] => (-1, [])
  | b :: rest => ((b : Int), rest)

/-- Arduino `Serial.readBytes(buffer, length)` into an uninitialised buffer of `length` cells:
the first `length` pending bytes are removed from the queue and stored from index 0 on; when
fewer are pending (the call times out) the remaining cells keep their previous content. -/
def Serial_readBytes (rx : List Nat) (length : Nat) (garbage : Nat → Nat) : List Nat × List Nat :=
  let got := rx.take length
  (got ++ (List.range' got.length (length - got.length)).map garbage, rx.drop length)

/-- The object state of `class lin_stack`: the two data members that the methods read. -/
structure lin_stack where
  sleepEnable : Bool
  identByte : Nat
deriving DecidableEq

/-- What a read method leaves behind: its return value, the buffer of the caller, the bytes still
pending on the transport and the hardware calls it made. -/
structure ReadResult where
  status : Int
  data : List Nat
  rx : List Nat
  trace : List Event
deriving DecidableEq

namespace lin_stack

/-- Member `baud_rate` of `lin_stack.h`. -/
def baud_rate : Nat := 10417

/-- Member `period` of `lin_stack.h` (microseconds per bit). -/
def period : Nat := 96

/-- Method `lin_stack::sleep(byte sleep_state)`. -/
def sleep (self : lin_stack) (sleep_state : Nat) : Int × List Event :=
  if self.sleepEnable = true then
    (1, (if sleep_state = 1 then [Event.digitalWrite 2 Level.HIGH]
         else if sleep_state = 0 then [Event.digitalWrite 2 Level.LOW]
         else []) ++ [Event.delayMicroseconds 20])
  else
    (1, [])

/-- Method `lin_stack::sleep_config()`. -/
def sleep_config : Int × List Event :=
  (1, [Event.pinMode 1 PinMode.OUTPUT, Event.digitalWrite 1 Level.LOW,
       Event.delayMicroseconds 200,
       Event.pinMode 2 PinMode.OUTPUT, Event.digitalWrite 2 Level.HIGH,
       Event.delayMicroseconds 200])

/-- Constructor `lin_stack(boolean sleepEn)` (master node).  `identByte` is left uninitialised by
the source; `uninit` is whatever the member holds. -/
def master (sleepEn : Bool) (uninit : Nat) : lin_stack × List Event :=
  (⟨sleepEn, uninit⟩, sleep_config.2)

/-- Constructor `lin_stack(boolean sleepEn, byte ident)` (slave node). -/
def slave (sleepEn : Bool) (ident : Nat) : lin_stack × List Event :=
  let self : lin_stack := ⟨sleepEn, ident⟩
  (self, sleep_config.2 ++ (self.sleep 1).2)

/-- Method `lin_stack::serial_pause(int no_bits)`: `del` is computed in `unsigned int`. -/
def serial_pause (no_bits : Int) : Int × List Event :=
  let del : Nat := (((period : Int) * no_bits) % (UINT_MOD : Int)).toNat
  (1, [Event.pinMode 1 PinMode.OUTPUT, Event.digitalWrite 1 Level.LOW,
       Event.delayMicroseconds del,
       Event.digitalWrite 1 Level.HIGH, Event.pinMode 1 PinMode.INPUT])

/-- Method `lin_stack::write(byte ident, byte data[], byte data_size)`. -/
def write (self : lin_stack) (ident : Nat) (data : List Nat) (data_size : Nat) :
    Int × List Event :=
  let data_size := data_size % 256
  let suma := (List.range data_size).foldl (fun suma i => (suma + data.getD i 0) % 256) 0
  let suma := (suma + 1) % 256
  let checksum := 255 - suma
  (1, (self.sleep 1).2 ++ (serial_pause 13).2
      ++ [Event.Serial_begin baud_rate, Event.Serial_write 0x55, Event.Serial_write ident]
      ++ (List.range data_size).map (fun i => Event.Serial_write (data.getD i 0))
      ++ [Event.Serial_write checksum, Event.Serial_end]
      ++ (self.sleep 0).2)

/-- Method `lin_stack::writeRequest(byte ident)`. -/
def writeRequest (self : lin_stack) (ident : Nat) : Int × List Event :=
  let header : List Nat := [0x55, ident]
  (1, (self.sleep 1).2 ++ (serial_pause 13).2
      ++ [Event.Serial_begin baud_rate]
      ++ (List.range 2).map (fun i => Event.Serial_write (header.getD i 0))
      ++ [Event.Serial_end]
      ++ (self.sleep 0).2)

/-- Method `lin_stack::writeResponse(byte data[], unsigned int data_size)`. -/
def writeResponse (self : lin_stack) (data : List Nat) (data_size : Nat) : Int × List Event :=
  let data_size := data_size % UINT_MOD
  let suma := (List.range data_size).foldl (fun suma i => (suma + data.getD i 0) % 256) 0
  let suma := (suma + 1) % 256
  let checksum := 255 - suma
  (1, (self.sleep 1).2
      ++ [Event.Serial_begin baud_rate]
      ++ (List.range data_size).map (fun i => Event.Serial_write (data.getD i 0))
      ++ [Event.Serial_write checksum, Event.Serial_end]
      ++ (self.sleep 0).2)

/-- Method `lin_stack::writeStream(byte data[], unsigned int data_size)`. -/
def writeStream (self : lin_stack) (data : List Nat) (data_size : Nat) : Int × List Event :=
  let data_size := data_size % UINT_MOD
  (1, (self.sleep 1).2 ++ (serial_pause 13).2
      ++ [Event.Serial_begin baud_rate]
      ++ (List.range data_size).map (fun i => Event.Serial_write (data.getD i 0))
      ++ [Event.Serial_end]
      ++ (self.sleep 0).2)

/-- Lines 72 to 75 of `write` (and 125 to 129 of `writeResponse`): the checksum byte a sender
computes over `data[0 .. data_size-1]`: 8-bit sum, 8-bit increment, then `255 - suma`. -/
def write_checksum (data : List Nat) (data_size : Nat) : Nat :=
  let suma := (List.range data_size).foldl (fun suma i => (suma + data.getD i 0) % 256) 0
  let suma := (suma + 1) % 256
  255 - suma

/-- Lines 274 to 276 of `validateChecksum`: the byte `v_checksum` that the receiver computes over
`data[2 .. data_size-2]`: 8-bit sum, then `255 - suma - 1` in `int`, stored in a `byte`. -/
def v_checksum (data : List Nat) (data_size : Nat) : Nat :=
  let data_size := data_size % UINT_MOD
  let last := (data_size + UINT_MOD - 1) % UINT_MOD
  let suma := (List.range' 2 (last - 2)).foldl (fun suma i => (suma + data.getD i 0) % 256) 0
  (((255 : Int) - (suma : Int) - 1) % 256).toNat

/-- Method `lin_stack::validateParity(byte ident)`. -/
def validateParity (self : lin_stack) (ident : Nat) : Bool :=
  if ident = self.identByte then true else false

/-- Method `lin_stack::validateChecksum(byte data[], unsigned int data_size)`.  `data_size-1` is
`unsigned int` arithmetic; `255 - suma - 1` is `int` arithmetic, stored in a `byte`. -/
def validateChecksum (data : List Nat) (data_size : Nat) : Bool :=
  let data_size := data_size % UINT_MOD
  let last := (data_size + UINT_MOD - 1) % UINT_MOD
  let checksum := data.getD last 0
  let suma := (List.range' 2 (last - 2)).foldl (fun suma i => (suma + data.getD i 0) % 256) 0
  let v_checksum := (((255 : Int) - (suma : Int) - 1) % 256).toNat
  if checksum = v_checksum then true else false

/-- Method `lin_stack::read(byte data[], unsigned int data_size)`.  `rx` is the receive queue,
`garbage` the previous content of the local array `rec`.  The poll is `Serial.read()`, which
takes the byte it finds off the queue. -/
def read (self : lin_stack) (data : List Nat) (data_size : Nat) (garbage : Nat → Nat)
    (rx : List Nat) : ReadResult :=
  let data_size := data_size % UINT_MOD
  let size3 := (data_size + 3) % UINT_MOD
  let polled := Serial_read rx
  if polled.1 ≠ -1 then
    let filled := Serial_readBytes polled.2 size3 garbage
    let rec_ := filled.1
    if (self.validateParity (rec_.getD 1 0) && validateChecksum rec_ size3) = true then
      { status := 1
        data := (List.range data_size).foldl (fun data j => data.set j (rec_.getD (j + 2) 0)) data
        rx := filled.2
        trace := [Event.Serial_read, Event.Serial_readBytes size3] }
    else
      { status := -1
        data := data
        rx := filled.2
        trace := [Event.Serial_read, Event.Serial_readBytes size3] }
  else
    { status := 0, data := data, rx := polled.2, trace := [Event.Serial_read] }

/-- Method `lin_stack::readStream(byte data[], unsigned int data_size)`. -/
def readStream (_self : lin_stack) (data : List Nat) (data_size : Nat) (garbage : Nat → Nat)
    (rx : List Nat) : ReadResult :=
  let data_size := data_size % UINT_MOD
  let polled := Serial_read rx
  if polled.1 ≠ -1 then
    let filled := Serial_readBytes polled.2 data_size garbage
    let rec_ := filled.1
    { status := 1
      data := (List.range data_size).foldl (fun data j => data.set j (rec_.getD j 0)) data
      rx := filled.2
      trace := [Event.Serial_read, Event.Serial_readBytes data_size] }
  else
    { status := 0, data := data, rx := polled.2, trace := [Event.Serial_read] }

end lin_stack

/-! ## Loop lemmas -/

/-- The byte-wise summation loop, started at index `s` and run `k` times, computes the sum of
the `k` cells from `s` on, modulo 256. -/
theorem foldl_sum_range' (data : List Nat) (s k : Nat) :
    (List.range' s k).foldl (fun suma i => (suma + data.getD i 0) % 256) 0
      = ((data.drop s).take k).sum % 256 := by
  induction k with
  | zero => simp
  | succ k ih =>
    rw [List.range'_concat, List.foldl_append, ih, List.take_succ, List.sum_append]
    simp only [List.foldl_cons, List.foldl_nil, Nat.one_mul, List.getElem?_drop,
      List.getD_eq_getElem?_getD]
    cases data[s + k]? <;> simp [Nat.add_mod]

/-- The summation loop of the two senders, over a whole payload. -/
theorem foldl_sum_range (p : List Nat) :
    (List.range p.length).foldl (fun suma i => (suma + p.getD i 0) % 256) 0 = p.sum % 256 := by
  rw [List.range_eq_range', foldl_sum_range']
  simp

/-- Writing the cells `0 .. length-1` of an array one by one writes the array. -/
theorem map_getD_range {α : Type} (f : Nat → α) (p : List Nat) :
    (List.range p.length).map (fun i => f (p.getD i 0)) = p.map f := by
  apply List.ext_getElem?
  intro i
  by_cases hi : i < p.length
  · simp [List.getElem?_range hi, List.getElem?_eq_getElem hi, hi]
  · have h1 : p.length ≤ i := Nat.le_of_not_lt hi
    rw [List.getElem?_eq_none (by simpa using h1), List.getElem?_eq_none (by simpa using h1)]

/-- Cell `i` after the copy loop `for j < n: data[j] = f j`. -/
theorem copy_loop_getElem? (f : Nat → Nat) (data : List Nat) (n i : Nat) :
    ((List.range n).foldl (fun data j => data.set j (f j)) data)[i]?
      = if i < n then (data[i]?).map (fun _ => f i) else data[i]? := by
  induction n with
  | zero => simp
  | succ n ih =>
    rw [List.range_succ, List.foldl_append]
    simp only [List.foldl_cons, List.foldl_nil, List.getElem?_set']
    by_cases h : n = i
    · subst h
      simp [ih]
      rfl
    · rw [if_neg h, ih]
      by_cases h2 : i < n
      · simp [h2, Nat.lt_succ_of_lt h2]
      · have : ¬ i < n + 1 := by omega
        simp [h2, this]

/-- The copy loop leaves the first `n` cells holding `f 0 .. f (n-1)` when the buffer has room. -/
theorem copy_loop_take (f : Nat → Nat) (data : List Nat) (n : Nat) (h : n ≤ data.length) :
    ((List.range n).foldl (fun data j => data.set j (f j)) data).take n
      = (List.range n).map f := by
  apply List.ext_getElem?
  intro i
  rw [List.getElem?_take, copy_loop_getElem?]
  by_cases hi : i < n
  · have hd : i < data.length := by omega
    simp [hi, List.getElem?_range hi, List.getElem?_eq_getElem hd]
  · have h1 : n ≤ i := Nat.le_of_not_lt hi
    rw [if_neg hi, List.getElem?_eq_none (by simpa using h1)]

/-! ## The transmit trace -/

theorem sent_append (a b : List Event) : sent (a ++ b) = sent a ++ sent b := by
  simp [sent]

theorem sent_map_Serial_write (l : List Nat) : sent (l.map Event.Serial_write) = l := by
  induction l with
  | nil => rfl
  | cons x xs ih =>
    simp only [sent, List.map_cons, List.filterMap_cons] at ih ⊢
    rw [ih]

namespace lin_stack

theorem sleep_fst (self : lin_stack) (s : Nat) : (self.sleep s).1 = 1 := by
  unfold sleep
  split <;> rfl

/-- Method `sleep` never touches `Serial`. -/
theorem sent_sleep (self : lin_stack) (s : Nat) : sent (self.sleep s).2 = [] := by
  unfold sleep
  by_cases h : self.sleepEnable = true
  · by_cases h1 : s = 1
    · simp [h, h1, sent]
    · by_cases h0 : s = 0
      · simp [h, h0, sent]
      · simp [h, h1, h0, sent]
  · simp [h, sent]

/-- Method `serial_pause` never touches `Serial`. -/
theorem sent_serial_pause (no_bits : Int) : sent (serial_pause no_bits).2 = [] := by
  simp [serial_pause, sent]

/-- Method `sleep` only ever drives pin 2 and waits. -/
theorem mem_sleep (self : lin_stack) (s : Nat) (e : Event) (he : e ∈ (self.sleep s).2) :
    e = Event.digitalWrite 2 Level.HIGH ∨ e = Event.digitalWrite 2 Level.LOW
      ∨ e = Event.delayMicroseconds 20 := by
  unfold sleep at he
  by_cases h : self.sleepEnable = true
  · by_cases h1 : s = 1
    · simp [h, h1] at he
      rcases he with he | he <;> simp [he]
    · by_cases h0 : s = 0
      · simp [h, h0] at he
        rcases he with he | he <;> simp [he]
      · simp [h, h1, h0] at he
        simp [he]
  · simp [h] at he

/-! ## The receive path on a complete window -/

theorem Serial_readBytes_window (w rest : List Nat) (garbage : Nat → Nat) :
    Serial_readBytes (w ++ rest) w.length garbage = (w, rest) := by
  simp [Serial_readBytes]

/-- On a complete window `validateChecksum` compares the trailing byte with the formula
of the senders over the payload cells. -/
theorem validateChecksum_window (w : List Nat) (n : Nat) (hn : n + 3 < UINT_MOD) :
    validateChecksum w (n + 3)
      = decide (w.getD (n + 2) 0 = 255 - (((w.drop 2).take n).sum + 1) % 256) := by
  have h1 : (n + 3) % UINT_MOD = n + 3 := Nat.mod_eq_of_lt hn
  have h2 : (n + 3 + UINT_MOD - 1) % UINT_MOD = n + 2 := by
    unfold UINT_MOD at *
    omega
  unfold validateChecksum
  simp only [h1, h2, Nat.add_sub_cancel, foldl_sum_range']
  have h3 : (((255 : Int) - ((((w.drop 2).take n).sum % 256 : Nat) : Int) - 1) % 256).toNat
      = 255 - (((w.drop 2).take n).sum + 1) % 256 := by
    omega
  rw [h3]
  by_cases h : w.getD (n + 2) 0 = 255 - (((w.drop 2).take n).sum + 1) % 256
  · simp [h]
  · simp [h]

/-- Method `read` when the polled byte `b` is followed by a complete window `w`. -/
theorem read_window (self : lin_stack) (data : List Nat) (n : Nat) (garbage : Nat → Nat)
    (b : Nat) (w rest : List Nat) (hw : w.length = n + 3) (hn : n + 3 < UINT_MOD) :
    self.read data n garbage (b :: (w ++ rest))
      = if (self.validateParity (w.getD 1 0) && validateChecksum w (n + 3)) = true then
          ⟨1, (List.range n).foldl (fun data j => data.set j (w.getD (j + 2) 0)) data, rest,
            [Event.Serial_read, Event.Serial_readBytes (n + 3)]⟩
        else
          ⟨-1, data, rest, [Event.Serial_read, Event.Serial_readBytes (n + 3)]⟩ := by
  have h0 : n % UINT_MOD = n := Nat.mod_eq_of_lt (by omega)
  have h1 : (n + 3) % UINT_MOD = n + 3 := Nat.mod_eq_of_lt hn
  have hb : ((b : Int) ≠ -1) := by omega
  have hr : Serial_readBytes (w ++ rest) (n + 3) garbage = (w, rest) := by
    rw [← hw]
    exact Serial_readBytes_window w rest garbage
  unfold read
  simp only [h0, h1, Serial_read, hb, hr, ne_eq, not_false_eq_true, if_true]


/-- The bytes of a frame, as cells of the receive window. -/
theorem frame_cells (s X : Nat) (p : List Nat) (c : Nat) :
    (s :: X :: (p ++ [c])).getD 1 0 = X
      ∧ (s :: X :: (p ++ [c])).getD (p.length + 2) 0 = c
      ∧ ((s :: X :: (p ++ [c])).drop 2).take p.length = p
      ∧ (List.range p.length).map (fun j => (s :: X :: (p ++ [c])).getD (j + 2) 0) = p := by
  refine ⟨rfl, ?_, ?_, ?_⟩
  · simp [List.getD_eq_getElem?_getD]
  · simp
  · apply List.ext_getElem?
    intro i
    by_cases hi : i < p.length
    · simp [List.getElem?_range hi, List.getD_eq_getElem?_getD, List.getElem?_append_left hi,
        List.getElem?_eq_getElem hi]
    · have h1 : p.length ≤ i := Nat.le_of_not_lt hi
      rw [List.getElem?_eq_none (by simpa using h1), List.getElem?_eq_none (by simpa using h1)]

/-- Status and buffer of `read` on a complete window, in terms of the two validations. -/
theorem read_window_status (self : lin_stack) (data : List Nat) (n : Nat) (garbage : Nat → Nat)
    (b : Nat) (w rest : List Nat) (hw : w.length = n + 3) (hn : n + 3 < UINT_MOD) :
    ((self.read data n garbage (b :: (w ++ rest))).status = 1
        ↔ (w.getD 1 0 = self.identByte
            ∧ w.getD (n + 2) 0 = 255 - (((w.drop 2).take n).sum + 1) % 256))
      ∧ ((self.read data n garbage (b :: (w ++ rest))).status ≠ 1
          → (self.read data n garbage (b :: (w ++ rest))).status = -1
            ∧ (self.read data n garbage (b :: (w ++ rest))).data = data)
      ∧ ((self.read data n garbage (b :: (w ++ rest))).status = 1 → n ≤ data.length
          → (self.read data n garbage (b :: (w ++ rest))).data.take n = (w.drop 2).take n)
      ∧ (self.read data n garbage (b :: (w ++ rest))).rx = rest := by
  have hpar : self.validateParity (w.getD 1 0) = decide (w.getD 1 0 = self.identByte) := by
    unfold validateParity
    by_cases hX : w.getD 1 0 = self.identByte
    · rw [if_pos hX, decide_eq_true hX]
    · rw [if_neg hX, decide_eq_false hX]
  have hne : ((-1 : Int) = 1) → False := by decide
  by_cases hX : w.getD 1 0 = self.identByte
  · by_cases hc : w.getD (n + 2) 0 = 255 - (((w.drop 2).take n).sum + 1) % 256
    · have hread : self.read data n garbage (b :: (w ++ rest))
          = ⟨1, (List.range n).foldl (fun data j => data.set j (w.getD (j + 2) 0)) data, rest,
              [Event.Serial_read, Event.Serial_readBytes (n + 3)]⟩ := by
        rw [read_window self data n garbage b w rest hw hn, validateChecksum_window w n hn,
          hpar, decide_eq_true hX, decide_eq_true hc]
        rfl
      rw [hread]
      refine ⟨⟨fun _ => ⟨hX, hc⟩, fun _ => rfl⟩, fun h => absurd rfl h, ?_, rfl⟩
      intro _ hd
      show List.take n ((List.range n).foldl (fun data j => data.set j (w.getD (j + 2) 0)) data)
        = (w.drop 2).take n
      rw [copy_loop_take _ data n hd]
      apply List.ext_getElem?
      intro i
      by_cases hi : i < n
      · have h2 : i + 2 < w.length := by omega
        have h3 : 2 + i < w.length := by omega
        rw [List.getElem?_map, List.getElem?_range hi, List.getElem?_take, if_pos hi,
          List.getElem?_drop, List.getElem?_eq_getElem h3]
        show some (w.getD (i + 2) 0) = some w[2 + i]
        rw [List.getD_eq_getElem _ _ h2]
        simp only [Nat.add_comm]
      · have h1 : n ≤ i := Nat.le_of_not_lt hi
        rw [List.getElem?_eq_none (by simpa using h1),
          List.getElem?_eq_none (by simp; omega)]
    · have hread : self.read data n garbage (b :: (w ++ rest))
          = ⟨-1, data, rest, [Event.Serial_read, Event.Serial_readBytes (n + 3)]⟩ := by
        rw [read_window self data n garbage b w rest hw hn, validateChecksum_window w n hn,
          hpar, decide_eq_true hX, decide_eq_false hc]
        rfl
      rw [hread]
      exact ⟨⟨fun h => (hne h).elim, fun h => absurd h.2 hc⟩, fun _ => ⟨rfl, rfl⟩,
        fun h => (hne h).elim, rfl⟩
  · have hread : self.read data n garbage (b :: (w ++ rest))
        = ⟨-1, data, rest, [Event.Serial_read, Event.Serial_readBytes (n + 3)]⟩ := by
      rw [read_window self data n garbage b w rest hw hn, hpar, decide_eq_false hX]
      rfl
    rw [hread]
    exact ⟨⟨fun h => (hne h).elim, fun h => absurd h.1 hX⟩, fun _ => ⟨rfl, rfl⟩,
      fun h => (hne h).elim, rfl⟩

/-- Method `read` on a polled byte followed by a frame addressed to this node. -/
theorem read_frame (self : lin_stack) (data : List Nat) (garbage : Nat → Nat)
    (b s : Nat) (p rest : List Nat) (hp : p.length + 3 < UINT_MOD) :
    (self.read data p.length garbage
        (b :: (s :: self.identByte :: (p ++ [255 - (p.sum + 1) % 256]) ++ rest))).status = 1
      ∧ (p.length ≤ data.length →
          (self.read data p.length garbage
            (b :: (s :: self.identByte :: (p ++ [255 - (p.sum + 1) % 256]) ++ rest))).data.take
              p.length = p)
      ∧ (self.read data p.length garbage
          (b :: (s :: self.identByte :: (p ++ [255 - (p.sum + 1) % 256]) ++ rest))).rx = rest := by
  have hw : (s :: self.identByte :: (p ++ [255 - (p.sum + 1) % 256])).length = p.length + 3 := by
    simp
  obtain ⟨c1, c2, c3, _⟩ := frame_cells s self.identByte p (255 - (p.sum + 1) % 256)
  obtain ⟨h1, _, h3, h4⟩ := read_window_status self data p.length garbage b
    (s :: self.identByte :: (p ++ [255 - (p.sum + 1) % 256])) rest hw hp
  have hs := h1.mpr ⟨c1, by rw [c2, c3]⟩
  refine ⟨hs, ?_, h4⟩
  intro hd
  rw [h3 hs hd, c3]

/-! ## The four senders, on a payload passed with its own length -/

theorem write_eq (self : lin_stack) (ident : Nat) (p : List Nat) (hp : p.length < 256) :
    self.write ident p p.length
      = (1, (self.sleep 1).2 ++ (serial_pause 13).2 ++ [Event.Serial_begin baud_rate]
            ++ (0x55 :: ident :: (p ++ [255 - (p.sum + 1) % 256])).map Event.Serial_write
            ++ [Event.Serial_end] ++ (self.sleep 0).2) := by
  unfold write
  simp only [Nat.mod_eq_of_lt hp, foldl_sum_range, map_getD_range, Nat.add_mod_mod,
    Nat.mod_add_mod]
  simp

theorem writeResponse_eq (self : lin_stack) (p : List Nat) (hp : p.length < UINT_MOD) :
    self.writeResponse p p.length
      = (1, (self.sleep 1).2 ++ [Event.Serial_begin baud_rate]
            ++ (p ++ [255 - (p.sum + 1) % 256]).map Event.Serial_write
            ++ [Event.Serial_end] ++ (self.sleep 0).2) := by
  unfold writeResponse
  simp only [Nat.mod_eq_of_lt hp, foldl_sum_range, map_getD_range, Nat.add_mod_mod,
    Nat.mod_add_mod]
  simp

theorem writeStream_eq (self : lin_stack) (d : List Nat) (hd : d.length < UINT_MOD) :
    self.writeStream d d.length
      = (1, (self.sleep 1).2 ++ (serial_pause 13).2 ++ [Event.Serial_begin baud_rate]
            ++ d.map Event.Serial_write ++ [Event.Serial_end] ++ (self.sleep 0).2) := by
  unfold writeStream
  simp only [Nat.mod_eq_of_lt hd, map_getD_range]

theorem writeRequest_eq (self : lin_stack) (ident : Nat) :
    self.writeRequest ident
      = (1, (self.sleep 1).2 ++ (serial_pause 13).2
            ++ [Event.Serial_begin baud_rate, Event.Serial_write 0x55, Event.Serial_write ident,
                Event.Serial_end]
            ++ (self.sleep 0).2) := by
  simp [writeRequest, List.range_succ]

/-- The bytes `Serial.write` receives between `Serial.begin` and `Serial.end`, for a trace of
the shape every sender produces. -/
theorem sent_framed (pre post : List Event) (bytes : List Nat) (baud : Nat)
    (hpre : sent pre = []) (hpost : sent post = []) :
    sent (pre ++ [Event.Serial_begin baud] ++ bytes.map Event.Serial_write
        ++ [Event.Serial_end] ++ post) = bytes := by
  simp only [sent_append, hpre, hpost, sent_map_Serial_write]
  simp [sent]

theorem sent_write (self : lin_stack) (ident : Nat) (p : List Nat) (hp : p.length < 256) :
    sent (self.write ident p p.length).2 = 0x55 :: ident :: (p ++ [255 - (p.sum + 1) % 256]) := by
  rw [write_eq self ident p hp]
  exact sent_framed _ _ _ _ (by rw [sent_append, sent_sleep, sent_serial_pause]; rfl)
    (sent_sleep self 0)

theorem sent_writeResponse (self : lin_stack) (p : List Nat) (hp : p.length < UINT_MOD) :
    sent (self.writeResponse p p.length).2 = p ++ [255 - (p.sum + 1) % 256] := by
  rw [writeResponse_eq self p hp]
  exact sent_framed _ _ _ _ (sent_sleep self 1) (sent_sleep self 0)


/-- Method `sleep` leaves pin 1, the transmit line that carries the break, alone. -/
theorem sleep_not_pin1 (self : lin_stack) (s : Nat) :
    (∀ mode, Event.pinMode 1 mode ∉ (self.sleep s).2)
      ∧ (∀ level, Event.digitalWrite 1 level ∉ (self.sleep s).2) := by
  constructor
  · intro mode hmem
    rcases mem_sleep self s _ hmem with h | h | h <;> cases h
  · intro level hmem
    rcases mem_sleep self s _ hmem with h | h | h <;> cases h

/-! ## Claims -/

/-- Claim C1 (round trip).  Let `p` be a payload that `write` can be given (its `data_size` is a
`byte`; this covers the lengths 0 to 8) and `id` an identifier.  If the bytes that
`write(id, p)` hands to `Serial.write` reach, unmodified, a slave constructed with identifier
`id` as the window behind the byte `b` that the poll takes, and `read` is called with size
`|p|` on a buffer with room for `|p|` bytes, then `read` returns 1 and the first `|p|` bytes of
the buffer are `p`. -/
theorem write_read_round_trip (m : lin_stack) (sleepEn : Bool) (id : Nat) (p data : List Nat)
    (garbage : Nat → Nat) (b : Nat) (rest : List Nat)
    (hp : p.length < 256) (hd : p.length ≤ data.length) :
    ((slave sleepEn id).1.read data p.length garbage
        (b :: (sent (m.write id p p.length).2 ++ rest))).status = 1
      ∧ ((slave sleepEn id).1.read data p.length garbage
        (b :: (sent (m.write id p p.length).2 ++ rest))).data.take p.length = p := by
  rw [sent_write m id p hp]
  have h := read_frame (slave sleepEn id).1 data garbage b 0x55 p rest
    (by unfold UINT_MOD; omega)
  exact ⟨h.1, h.2.1 hd⟩

/-- Witness for C1: master sends `[0xAA]` to identifier `0x10`, the slave `0x10` reads it. -/
theorem write_read_round_trip_witness :
    ([0xAA] : List Nat).length < 256 ∧ ([0xAA] : List Nat).length ≤ ([0] : List Nat).length
      ∧ ((slave true 0x10).1.read [0] 1 (fun _ => 0)
          (0 :: (sent ((master true 0).1.write 0x10 [0xAA] 1).2 ++ []))).status = 1
      ∧ ((slave true 0x10).1.read [0] 1 (fun _ => 0)
          (0 :: (sent ((master true 0).1.write 0x10 [0xAA] 1).2 ++ []))).data.take 1 = [0xAA] :=
  ⟨by decide, by decide,
    write_read_round_trip (master true 0).1 true 0x10 [0xAA] [0] (fun _ => 0) 0 []
      (by decide) (by decide)⟩

/-- Claim C2.  For every payload `p` that `write` can be given, the checksum byte that `write`
and `writeResponse` compute (the last byte each hands to `Serial.write`) is
`255 - ((sum p + 1) mod 256)`; it is 254 for the empty payload and 255 when the byte sum is
congruent to 255 modulo 256. -/
theorem checksum_formula (self : lin_stack) (ident : Nat) (p : List Nat)
    (hp : p.length < 256) :
    (sent (self.write ident p p.length).2).getLast? = some (255 - (p.sum + 1) % 256)
      ∧ (sent (self.writeResponse p p.length).2).getLast? = some (255 - (p.sum + 1) % 256)
      ∧ (p = [] → (sent (self.write ident p p.length).2).getLast? = some 254
                  ∧ (sent (self.writeResponse p p.length).2).getLast? = some 254)
      ∧ (p.sum % 256 = 255 → (sent (self.write ident p p.length).2).getLast? = some 255
                  ∧ (sent (self.writeResponse p p.length).2).getLast? = some 255) := by
  have hp2 : p.length < UINT_MOD := by unfold UINT_MOD; omega
  have hw : (sent (self.write ident p p.length).2).getLast?
      = some (255 - (p.sum + 1) % 256) := by
    rw [sent_write self ident p hp]
    have : 0x55 :: ident :: (p ++ [255 - (p.sum + 1) % 256])
        = (0x55 :: ident :: p) ++ [255 - (p.sum + 1) % 256] := by simp
    rw [this, List.getLast?_concat]
  have hr : (sent (self.writeResponse p p.length).2).getLast?
      = some (255 - (p.sum + 1) % 256) := by
    rw [sent_writeResponse self p hp2, List.getLast?_concat]
  refine ⟨hw, hr, ?_, ?_⟩
  · intro he
    rw [hw, hr]
    subst he
    exact ⟨rfl, rfl⟩
  · intro hs
    rw [hw, hr]
    have : 255 - (p.sum + 1) % 256 = 255 := by omega
    rw [this]
    exact ⟨rfl, rfl⟩

/-- Witness for C2: the payload `[0xFF]`, whose byte sum is 255. -/
theorem checksum_formula_witness :
    ([0xFF] : List Nat).length < 256
      ∧ (sent ((master false 0).1.write 0x10 [0xFF] 1).2).getLast? = some 255
      ∧ (sent ((master false 0).1.writeResponse [0xFF] 1).2).getLast? = some 255 :=
  ⟨by decide,
    ((checksum_formula (master false 0).1 0x10 [0xFF] (by decide)).2.2.2 (by decide)).1,
    ((checksum_formula (master false 0).1 0x10 [0xFF] (by decide)).2.2.2 (by decide)).2⟩

/-- Claim C3.  For every identifier and every payload `p` that `write` can be given,
`write(id, p)` returns 1 and performs, in this order: `sleep(1)`; the 13-bit break, that is
pin 1 made an output and driven low, a hold of 1248 microseconds, pin 1 driven high and made
an input again; `Serial.begin`; `Serial.write` of `0x55`, of `id`, of each byte of `p` in order
and of the checksum of `p`; `Serial.end`; `sleep(0)`.  So the bytes sent are exactly
`0x55, id, p, checksum`, all of them after the break, and `0x55, id, 1, 2, 3, 0xF8` for
`p = [1, 2, 3]`. -/
theorem write_emits_frame (self : lin_stack) (ident : Nat) (p : List Nat)
    (hp : p.length < 256) :
    self.write ident p p.length
        = (1, (self.sleep 1).2
              ++ [Event.pinMode 1 PinMode.OUTPUT, Event.digitalWrite 1 Level.LOW,
                 Event.delayMicroseconds 1248,
                 Event.digitalWrite 1 Level.HIGH, Event.pinMode 1 PinMode.INPUT]
              ++ [Event.Serial_begin baud_rate]
              ++ (0x55 :: ident :: (p ++ [255 - (p.sum + 1) % 256])).map Event.Serial_write
              ++ [Event.Serial_end] ++ (self.sleep 0).2)
      ∧ sent (self.write ident p p.length).2
          = 0x55 :: ident :: (p ++ [255 - (p.sum + 1) % 256])
      ∧ (p = [0x01, 0x02, 0x03] →
          sent (self.write ident p p.length).2 = [0x55, ident, 0x01, 0x02, 0x03, 0xF8]) := by
  refine ⟨by rw [write_eq self ident p hp]; rfl, sent_write self ident p hp, ?_⟩
  intro he
  rw [sent_write self ident p hp]
  subst he
  rfl

/-- Witness for C3: the payload `[1, 2, 3]` of the specification, sent to identifier `0x10`. -/
theorem write_emits_frame_witness :
    ([0x01, 0x02, 0x03] : List Nat).length < 256
      ∧ sent ((master true 0).1.write 0x10 [0x01, 0x02, 0x03] 3).2
          = [0x55, 0x10, 0x01, 0x02, 0x03, 0xF8] :=
  ⟨by decide, (write_emits_frame (master true 0).1 0x10 [0x01, 0x02, 0x03] (by decide)).2.2 rfl⟩

/-- Claim C4.  For every slave identifier, size `n` and complete window `w` of `n + 3` bytes
behind the polled byte whose identifier cell `w[1]` differs from the identifier of the slave,
`read` returns -1; nothing is assumed about the trailing checksum byte. -/
theorem read_rejects_other_identifier (self : lin_stack) (data : List Nat) (n : Nat)
    (garbage : Nat → Nat) (b : Nat) (w rest : List Nat)
    (hw : w.length = n + 3) (hn : n + 3 < UINT_MOD) (hid : w.getD 1 0 ≠ self.identByte) :
    (self.read data n garbage (b :: (w ++ rest))).status = -1 := by
  obtain ⟨h1, h2, _, _⟩ := read_window_status self data n garbage b w rest hw hn
  exact (h2 (fun h => hid (h1.mp h).1)).1

/-- Witness for C4: slave `0x10`, window `[0x55, 0x11, 0xAA, 0x54]` with the correct checksum
`0x54` of `[0xAA]`. -/
theorem read_rejects_other_identifier_witness :
    ([0x55, 0x11, 0xAA, 0x54] : List Nat).length = 1 + 3 ∧ 1 + 3 < UINT_MOD
      ∧ ([0x55, 0x11, 0xAA, 0x54] : List Nat).getD 1 0 ≠ (slave true 0x10).1.identByte
      ∧ ((slave true 0x10).1.read [0] 1 (fun _ => 0)
          (0 :: ([0x55, 0x11, 0xAA, 0x54] ++ []))).status = -1 :=
  ⟨by decide, by decide, by decide,
    read_rejects_other_identifier (slave true 0x10).1 [0] 1 (fun _ => 0) 0
      [0x55, 0x11, 0xAA, 0x54] [] (by decide) (by decide) (by decide)⟩

/-- Claim C5.  For every slave identifier, size `n` and complete window `w` of `n + 3` bytes
behind the polled byte: `read` returns 1 exactly when `w[1]` is the identifier of the slave and
`w[n+2] = 255 - ((w[2] + ... + w[n+1] + 1) mod 256)`, and returns -1 otherwise; when it returns
1 and the buffer has room for `n` bytes, the first `n` bytes of the buffer are `w[2..n+1]`. -/
theorem read_accepts_iff (self : lin_stack) (data : List Nat) (n : Nat)
    (garbage : Nat → Nat) (b : Nat) (w rest : List Nat)
    (hw : w.length = n + 3) (hn : n + 3 < UINT_MOD) :
    ((self.read data n garbage (b :: (w ++ rest))).status = 1
        ↔ (w.getD 1 0 = self.identByte
            ∧ w.getD (n + 2) 0 = 255 - (((w.drop 2).take n).sum + 1) % 256))
      ∧ ((self.read data n garbage (b :: (w ++ rest))).status ≠ 1
          → (self.read data n garbage (b :: (w ++ rest))).status = -1)
      ∧ ((self.read data n garbage (b :: (w ++ rest))).status = 1 → n ≤ data.length
          → (self.read data n garbage (b :: (w ++ rest))).data.take n = (w.drop 2).take n) := by
  obtain ⟨h1, h2, h3, _⟩ := read_window_status self data n garbage b w rest hw hn
  exact ⟨h1, fun h => (h2 h).1, h3⟩

/-- Witness for C5: slave `0x10`, window `[0x55, 0x10, 0xAA, 0x54]`: status 1, output `[0xAA]`. -/
theorem read_accepts_iff_witness :
    ([0x55, 0x10, 0xAA, 0x54] : List Nat).length = 1 + 3 ∧ 1 + 3 < UINT_MOD
      ∧ ((slave true 0x10).1.read [0] 1 (fun _ => 0)
          (0 :: ([0x55, 0x10, 0xAA, 0x54] ++ []))).status = 1
      ∧ ((slave true 0x10).1.read [0] 1 (fun _ => 0)
          (0 :: ([0x55, 0x10, 0xAA, 0x54] ++ []))).data.take 1 = [0xAA] :=
  ⟨by decide, by decide,
    (read_accepts_iff (slave true 0x10).1 [0] 1 (fun _ => 0) 0 [0x55, 0x10, 0xAA, 0x54] []
      (by decide) (by decide)).1.mpr ⟨by decide, by decide⟩,
    (read_accepts_iff (slave true 0x10).1 [0] 1 (fun _ => 0) 0 [0x55, 0x10, 0xAA, 0x54] []
      (by decide) (by decide)).2.2 (by decide) (by decide)⟩

/-- Claim C6.  When the receive queue is empty at the poll, `read` and `readStream` return 0
for every size and every buffer content, leave the buffer as it was and take no byte from the
transport; the only hardware call is the poll itself. -/
theorem read_no_data (self : lin_stack) (data : List Nat) (n : Nat) (garbage : Nat → Nat) :
    self.read data n garbage [] = ⟨0, data, [], [Event.Serial_read]⟩
      ∧ self.readStream data n garbage [] = ⟨0, data, [], [Event.Serial_read]⟩ :=
  ⟨rfl, rfl⟩


/-- Claim C7 as stated fails on the code.  Slave `0x10`, size 1.  When the pending bytes are
exactly the frame `[0x55, 0x10, 0xAA, 0x54]`, the poll `Serial.read()` takes `0x55` off the
queue, so `rec[1]` is `0xAA` and `read` returns -1 with the buffer untouched, where the claim
promises 1 and `[0xAA]`.  With one more byte pending, `read` removes all five bytes, not
`n + 3 = 4`. -/
theorem read_frame_at_queue_head :
    (slave true 0x10).1.read [0] 1 (fun _ => 0) [0x55, 0x10, 0xAA, 0x54]
        = ⟨-1, [0], [], [Event.Serial_read, Event.Serial_readBytes 4]⟩
      ∧ ((slave true 0x10).1.read [0] 1 (fun _ => 0) [0x55, 0x10, 0xAA, 0x54, 0x99]).rx = []
      ∧ ((slave true 0x10).1.read [0] 1 (fun _ => 0) [0x55, 0x10, 0xAA, 0x54, 0x99]).status
          = -1 := by
  decide

/-- Claim C7, amended.  A framed read with size `n` that finds at least `n + 4` bytes pending
removes exactly `n + 4` of them: the first pending byte `b`, which the poll takes whatever its
value, and the `n + 3` bytes `w` behind it.  The window it validates is `w`, in order.  So when
the pending bytes are one byte followed by a frame `[0x55, X, payload, checksum(payload)]`
addressed to this slave, `read` returns 1 and (given room for `n` bytes) the output is the
payload. -/
theorem read_takes_poll_byte_and_window (self : lin_stack) (data : List Nat) (n : Nat)
    (garbage : Nat → Nat) (b : Nat) (w rest : List Nat)
    (hw : w.length = n + 3) (hn : n + 3 < UINT_MOD) :
    (self.read data n garbage (b :: (w ++ rest))).rx = rest
      ∧ (b :: (w ++ rest)).length
          = (self.read data n garbage (b :: (w ++ rest))).rx.length + (n + 4)
      ∧ ((self.read data n garbage (b :: (w ++ rest))).status = 1
          ↔ (self.validateParity (w.getD 1 0) = true ∧ validateChecksum w (n + 3) = true))
      ∧ (∀ p : List Nat, w = 0x55 :: self.identByte :: (p ++ [255 - (p.sum + 1) % 256]) →
          (self.read data n garbage (b :: (w ++ rest))).status = 1
            ∧ (n ≤ data.length →
                (self.read data n garbage (b :: (w ++ rest))).data.take n = p)) := by
  have hrx : (self.read data n garbage (b :: (w ++ rest))).rx = rest :=
    (read_window_status self data n garbage b w rest hw hn).2.2.2
  refine ⟨hrx, ?_, ?_, ?_⟩
  · rw [hrx]
    simp only [List.length_cons, List.length_append, hw]
    omega
  · rw [read_window self data n garbage b w rest hw hn]
    by_cases hc : (self.validateParity (w.getD 1 0) && validateChecksum w (n + 3)) = true
    · rw [if_pos hc]
      exact ⟨fun _ => Bool.and_eq_true_iff.mp hc, fun _ => rfl⟩
    · rw [if_neg hc]
      have hne : ((-1 : Int) = 1) → False := by decide
      exact ⟨fun h => (hne h).elim, fun h => absurd (Bool.and_eq_true_iff.mpr h) hc⟩
  · intro p hp
    subst hp
    have hlen : n = p.length := by
      simp only [List.length_cons, List.length_append, List.length_nil] at hw
      omega
    subst hlen
    have h := read_frame self data garbage b 0x55 p rest hn
    exact ⟨h.1, h.2.1⟩

/-- Witness for C7 amended: slave `0x10`, queue `[0x00, 0x55, 0x10, 0xAA, 0x54, 0x99]`: the poll
takes `0x00`, the frame is accepted with output `[0xAA]`, and `0x99` stays pending. -/
theorem read_takes_poll_byte_and_window_witness :
    ([0x55, 0x10, 0xAA, 0x54] : List Nat).length = 1 + 3 ∧ 1 + 3 < UINT_MOD
      ∧ ((slave true 0x10).1.read [0] 1 (fun _ => 0)
          (0x00 :: ([0x55, 0x10, 0xAA, 0x54] ++ [0x99]))).rx = [0x99]
      ∧ ((slave true 0x10).1.read [0] 1 (fun _ => 0)
          (0x00 :: ([0x55, 0x10, 0xAA, 0x54] ++ [0x99]))).status = 1
      ∧ ((slave true 0x10).1.read [0] 1 (fun _ => 0)
          (0x00 :: ([0x55, 0x10, 0xAA, 0x54] ++ [0x99]))).data.take 1 = [0xAA] :=
  ⟨by decide, by decide,
    (read_takes_poll_byte_and_window (slave true 0x10).1 [0] 1 (fun _ => 0) 0x00
      [0x55, 0x10, 0xAA, 0x54] [0x99] (by decide) (by decide)).1,
    ((read_takes_poll_byte_and_window (slave true 0x10).1 [0] 1 (fun _ => 0) 0x00
      [0x55, 0x10, 0xAA, 0x54] [0x99] (by decide) (by decide)).2.2.2 [0xAA] (by decide)).1,
    ((read_takes_poll_byte_and_window (slave true 0x10).1 [0] 1 (fun _ => 0) 0x00
      [0x55, 0x10, 0xAA, 0x54] [0x99] (by decide) (by decide)).2.2.2 [0xAA] (by decide)).2
      (by decide)⟩

/-- Claim C8.  For every identifier, `writeRequest(id)` returns 1 and performs, in this order:
`sleep(1)`; the 13-bit break, that is pin 1 made an output and driven low, a hold of 1248
microseconds, pin 1 driven high and made an input again; `Serial.begin`; `Serial.write` of
`0x55` and of `id`; `Serial.end`; `sleep(0)`.  The bytes sent are exactly `0x55, id`, both after
the break, with no payload and no checksum byte. -/
theorem writeRequest_emits_header (self : lin_stack) (ident : Nat) :
    self.writeRequest ident
        = (1, (self.sleep 1).2
              ++ [Event.pinMode 1 PinMode.OUTPUT, Event.digitalWrite 1 Level.LOW,
                 Event.delayMicroseconds 1248,
                 Event.digitalWrite 1 Level.HIGH, Event.pinMode 1 PinMode.INPUT]
              ++ [Event.Serial_begin baud_rate, Event.Serial_write 0x55,
                  Event.Serial_write ident, Event.Serial_end]
              ++ (self.sleep 0).2)
      ∧ sent (self.writeRequest ident).2 = [0x55, ident] := by
  refine ⟨by rw [writeRequest_eq self ident]; rfl, ?_⟩
  rw [writeRequest_eq]
  simp only [sent_append, sent_sleep, sent_serial_pause]
  rfl

/-- Claim C9.  For every payload `p` (its length an `unsigned int`), `writeResponse(p)` returns
1 and performs, in this order: `sleep(1)`, `Serial.begin`, `Serial.write` of each byte of `p` in
order and of the checksum `255 - ((sum p + 1) mod 256)`, `Serial.end`, `sleep(0)`.  The bytes
sent are exactly `p` followed by the checksum, with no sync byte in front, and pin 1 is never
reconfigured nor driven: no break is generated. -/
theorem writeResponse_emits_payload (self : lin_stack) (p : List Nat)
    (hp : p.length < UINT_MOD) :
    self.writeResponse p p.length
        = (1, (self.sleep 1).2 ++ [Event.Serial_begin baud_rate]
              ++ (p ++ [255 - (p.sum + 1) % 256]).map Event.Serial_write
              ++ [Event.Serial_end] ++ (self.sleep 0).2)
      ∧ sent (self.writeResponse p p.length).2 = p ++ [255 - (p.sum + 1) % 256]
      ∧ (∀ mode, Event.pinMode 1 mode ∉ (self.writeResponse p p.length).2)
      ∧ (∀ level, Event.digitalWrite 1 level ∉ (self.writeResponse p p.length).2)
      ∧ (∀ us, Event.delayMicroseconds us ∈ (self.writeResponse p p.length).2 → us = 20) := by
  refine ⟨writeResponse_eq self p hp, sent_writeResponse self p hp, ?_, ?_, ?_⟩
  · intro mode hmem
    rw [writeResponse_eq self p hp] at hmem
    simp only [List.mem_append, List.mem_map, List.mem_singleton] at hmem
    rcases hmem with (((h | h) | ⟨x, _, h⟩) | h) | h
    · exact (sleep_not_pin1 self 1).1 mode h
    · cases h
    · cases h
    · cases h
    · exact (sleep_not_pin1 self 0).1 mode h
  · intro level hmem
    rw [writeResponse_eq self p hp] at hmem
    simp only [List.mem_append, List.mem_map, List.mem_singleton] at hmem
    rcases hmem with (((h | h) | ⟨x, _, h⟩) | h) | h
    · exact (sleep_not_pin1 self 1).2 level h
    · cases h
    · cases h
    · cases h
    · exact (sleep_not_pin1 self 0).2 level h
  · intro us hmem
    rw [writeResponse_eq self p hp] at hmem
    simp only [List.mem_append, List.mem_map, List.mem_singleton] at hmem
    rcases hmem with (((h | h) | ⟨x, _, h⟩) | h) | h
    · rcases mem_sleep self 1 _ h with h | h | h <;> cases h
      rfl
    · cases h
    · cases h
    · cases h
    · rcases mem_sleep self 0 _ h with h | h | h <;> cases h
      rfl

/-- Witness for C9: the response `[0xAA]` goes out as `0xAA, 0x54`. -/
theorem writeResponse_emits_payload_witness :
    ([0xAA] : List Nat).length < UINT_MOD
      ∧ sent ((slave true 0x10).1.writeResponse [0xAA] 1).2 = [0xAA, 0x54] :=
  ⟨by decide, (writeResponse_emits_payload (slave true 0x10).1 [0xAA] (by decide)).2.1⟩

/-- Claim C10.  For every byte sequence `d` (its length an `unsigned int`), `writeStream(d)`
returns 1 and performs, in this order: `sleep(1)`; the 13-bit break, that is pin 1 made an
output and driven low, a hold of 1248 microseconds, pin 1 driven high and made an input again;
`Serial.begin`; `Serial.write` of each byte of `d` in order; `Serial.end`; `sleep(0)`.  The bytes
sent are exactly `d`, all of them after the break: no sync byte in front, no checksum behind. -/
theorem writeStream_emits_verbatim (self : lin_stack) (d : List Nat)
    (hd : d.length < UINT_MOD) :
    self.writeStream d d.length
        = (1, (self.sleep 1).2
              ++ [Event.pinMode 1 PinMode.OUTPUT, Event.digitalWrite 1 Level.LOW,
                 Event.delayMicroseconds 1248,
                 Event.digitalWrite 1 Level.HIGH, Event.pinMode 1 PinMode.INPUT]
              ++ [Event.Serial_begin baud_rate]
              ++ d.map Event.Serial_write ++ [Event.Serial_end] ++ (self.sleep 0).2)
      ∧ sent (self.writeStream d d.length).2 = d := by
  refine ⟨by rw [writeStream_eq self d hd]; rfl, ?_⟩
  rw [writeStream_eq self d hd]
  exact sent_framed _ _ _ _ (by rw [sent_append, sent_sleep, sent_serial_pause]; rfl)
    (sent_sleep self 0)

/-- Witness for C10: the stream `[0x3C, 0x01, 0xFF]` goes out unchanged. -/
theorem writeStream_emits_verbatim_witness :
    ([0x3C, 0x01, 0xFF] : List Nat).length < UINT_MOD
      ∧ sent ((master true 0).1.writeStream [0x3C, 0x01, 0xFF] 3).2 = [0x3C, 0x01, 0xFF] :=
  ⟨by decide, (writeStream_emits_verbatim (master true 0).1 [0x3C, 0x01, 0xFF] (by decide)).2⟩


/-! ## Raw stream read, power control and break timing -/

/-- Method `readStream` when the polled byte `b` is followed by `n` more bytes `w`. -/
theorem readStream_window (self : lin_stack) (data : List Nat) (n : Nat) (garbage : Nat → Nat)
    (b : Nat) (w rest : List Nat) (hw : w.length = n) (hn : n < UINT_MOD) :
    self.readStream data n garbage (b :: (w ++ rest))
      = ⟨1, (List.range n).foldl (fun data j => data.set j (w.getD j 0)) data, rest,
          [Event.Serial_read, Event.Serial_readBytes n]⟩ := by
  have h0 : n % UINT_MOD = n := Nat.mod_eq_of_lt hn
  have hb : ((b : Int) ≠ -1) := by omega
  have hr : Serial_readBytes (w ++ rest) n garbage = (w, rest) := by
    rw [← hw]
    exact Serial_readBytes_window w rest garbage
  unfold readStream
  simp only [h0, Serial_read, hb, hr, ne_eq, not_false_eq_true, if_true]

/-- Method `readStream` returns 1 as soon as one byte is pending. -/
theorem readStream_status_pending (self : lin_stack) (data : List Nat) (n : Nat)
    (garbage : Nat → Nat) (b : Nat) (rx : List Nat) :
    (self.readStream data n garbage (b :: rx)).status = 1 := by
  have hb : ((b : Int) ≠ -1) := by omega
  unfold readStream
  simp only [Serial_read, hb, ne_eq, not_false_eq_true, if_true]

/-- The three ways `read` can end: nothing pending, validation failed, success. -/
theorem read_shape (self : lin_stack) (data : List Nat) (n : Nat) (garbage : Nat → Nat)
    (rx : List Nat) :
    (∃ rx2, self.read data n garbage rx = ⟨0, data, rx2, [Event.Serial_read]⟩)
      ∨ (∃ rx2 k, self.read data n garbage rx
            = ⟨-1, data, rx2, [Event.Serial_read, Event.Serial_readBytes k]⟩)
      ∨ (∃ d rx2 k, self.read data n garbage rx
            = ⟨1, d, rx2, [Event.Serial_read, Event.Serial_readBytes k]⟩) := by
  unfold read
  dsimp only
  split
  · split
    · exact Or.inr (Or.inr ⟨_, _, _, rfl⟩)
    · exact Or.inr (Or.inl ⟨_, _, rfl⟩)
  · exact Or.inl ⟨_, rfl⟩

/-- The two ways `readStream` can end: nothing pending, or success. -/
theorem readStream_shape (self : lin_stack) (data : List Nat) (n : Nat) (garbage : Nat → Nat)
    (rx : List Nat) :
    (∃ rx2, self.readStream data n garbage rx = ⟨0, data, rx2, [Event.Serial_read]⟩)
      ∨ (∃ d rx2 k, self.readStream data n garbage rx
            = ⟨1, d, rx2, [Event.Serial_read, Event.Serial_readBytes k]⟩) := by
  unfold readStream
  dsimp only
  split
  · exact Or.inr ⟨_, _, _, rfl⟩
  · exact Or.inl ⟨_, rfl⟩

/-- Method `read` writes the buffer on the success path only. -/
theorem read_data_of_status_ne_one (self : lin_stack) (data : List Nat) (n : Nat)
    (garbage : Nat → Nat) (rx : List Nat)
    (h : (self.read data n garbage rx).status ≠ 1) :
    (self.read data n garbage rx).data = data := by
  rcases read_shape self data n garbage rx with ⟨rx2, hr⟩ | ⟨rx2, k, hr⟩ | ⟨d, rx2, k, hr⟩
  · rw [hr]
  · rw [hr]
  · rw [hr] at h
    exact absurd rfl h

/-- The only hardware calls of `read` are the poll and `readBytes`. -/
theorem read_trace_mem (self : lin_stack) (data : List Nat) (n : Nat) (garbage : Nat → Nat)
    (rx : List Nat) (e : Event) (he : e ∈ (self.read data n garbage rx).trace) :
    e = Event.Serial_read ∨ ∃ k, e = Event.Serial_readBytes k := by
  rcases read_shape self data n garbage rx with ⟨rx2, hr⟩ | ⟨rx2, k, hr⟩ | ⟨d, rx2, k, hr⟩
  · rw [hr] at he
    simp only [List.mem_singleton] at he
    exact Or.inl he
  · rw [hr] at he
    simp only [List.mem_cons, List.mem_singleton, List.not_mem_nil, or_false] at he
    rcases he with he | he
    · exact Or.inl he
    · exact Or.inr ⟨_, he⟩
  · rw [hr] at he
    simp only [List.mem_cons, List.mem_singleton, List.not_mem_nil, or_false] at he
    rcases he with he | he
    · exact Or.inl he
    · exact Or.inr ⟨_, he⟩

/-- The only hardware calls of `readStream` are the poll and `readBytes`. -/
theorem readStream_trace_mem (self : lin_stack) (data : List Nat) (n : Nat)
    (garbage : Nat → Nat) (rx : List Nat) (e : Event)
    (he : e ∈ (self.readStream data n garbage rx).trace) :
    e = Event.Serial_read ∨ ∃ k, e = Event.Serial_readBytes k := by
  rcases readStream_shape self data n garbage rx with ⟨rx2, hr⟩ | ⟨d, rx2, k, hr⟩
  · rw [hr] at he
    simp only [List.mem_singleton] at he
    exact Or.inl he
  · rw [hr] at he
    simp only [List.mem_cons, List.mem_singleton, List.not_mem_nil, or_false] at he
    rcases he with he | he
    · exact Or.inl he
    · exact Or.inr ⟨_, he⟩

end lin_stack

/-- The control line is low after any trace that ends with `sleep(0)` under power control. -/
theorem controlLine_append_low (pre : List Event) :
    controlLine (pre ++ [Event.digitalWrite 2 Level.LOW, Event.delayMicroseconds 20])
      = some Level.LOW := by
  simp [controlLine, List.foldl_append]

namespace lin_stack

/-- Method `sleep` with power control enabled: the pin write, then the settle delay. -/
theorem sleep_enabled (self : lin_stack) (h : self.sleepEnable = true) :
    self.sleep 1 = (1, [Event.digitalWrite 2 Level.HIGH, Event.delayMicroseconds 20])
      ∧ self.sleep 0 = (1, [Event.digitalWrite 2 Level.LOW, Event.delayMicroseconds 20]) := by
  simp [sleep, h]

/-- Claim C11 as stated fails on the code.  Size 2, buffer `[7, 7]`, pending bytes `[1, 2, 3]`:
`readStream` removes three bytes, not two, and the buffer receives `[2, 3]`, not the first two
pending bytes `[1, 2]`, because the poll `Serial.read()` takes the `1`.  Size 1, buffer `[7]`,
one pending byte `[1]`: `readStream` returns 1 although `readBytes` got no byte, and the buffer
receives the old content `9` of the local array. -/
theorem readStream_poll_takes_first_byte :
    (slave true 0x10).1.readStream [7, 7] 2 (fun _ => 9) [1, 2, 3]
        = ⟨1, [2, 3], [], [Event.Serial_read, Event.Serial_readBytes 2]⟩
      ∧ (slave true 0x10).1.readStream [7] 1 (fun _ => 9) [1]
        = ⟨1, [9], [], [Event.Serial_read, Event.Serial_readBytes 1]⟩ := by
  decide

/-- Claim C11, amended.  For every size `n` and every output buffer, when at least `n + 1` bytes
are pending `readStream` removes exactly `n + 1` of them: the first pending byte `b`, which the
poll takes and drops, and the `n` bytes `w` behind it, which it copies verbatim and in order
into the first `n` bytes of the buffer (given room for them), with no validation; and it
returns 1 whenever at least one byte is pending. -/
theorem readStream_copies_behind_poll (self : lin_stack) (data : List Nat) (n : Nat)
    (garbage : Nat → Nat) (b : Nat) (w rest : List Nat)
    (hw : w.length = n) (hn : n < UINT_MOD) :
    (self.readStream data n garbage (b :: (w ++ rest))).status = 1
      ∧ (self.readStream data n garbage (b :: (w ++ rest))).rx = rest
      ∧ (b :: (w ++ rest)).length
          = (self.readStream data n garbage (b :: (w ++ rest))).rx.length + (n + 1)
      ∧ (n ≤ data.length →
          (self.readStream data n garbage (b :: (w ++ rest))).data.take n = w)
      ∧ (self.readStream data n garbage (b :: (w ++ rest))).data.drop n = data.drop n
      ∧ (∀ rx : List Nat, (self.readStream data n garbage (b :: rx)).status = 1) := by
  rw [readStream_window self data n garbage b w rest hw hn]
  refine ⟨rfl, rfl, ?_, ?_, ?_, fun rx => readStream_status_pending self data n garbage b rx⟩
  · simp only [List.length_cons, List.length_append, hw]
    omega
  · intro hd
    show List.take n ((List.range n).foldl (fun data j => data.set j (w.getD j 0)) data) = w
    rw [copy_loop_take _ data n hd]
    have h := map_getD_range (fun x => x) w
    rw [hw] at h
    rw [h, List.map_id']
  · show List.drop n ((List.range n).foldl (fun data j => data.set j (w.getD j 0)) data)
      = List.drop n data
    apply List.ext_getElem?
    intro i
    rw [List.getElem?_drop, List.getElem?_drop, copy_loop_getElem?, if_neg (by omega)]

/-- Witness for C11 amended: size 2, pending `[0x00, 0xA1, 0xA2, 0xA3]`: the buffer receives
`[0xA1, 0xA2]` and `0xA3` stays pending. -/
theorem readStream_copies_behind_poll_witness :
    ([0xA1, 0xA2] : List Nat).length = 2 ∧ 2 < UINT_MOD
      ∧ ((slave true 0x10).1.readStream [7, 7] 2 (fun _ => 9)
          (0x00 :: ([0xA1, 0xA2] ++ [0xA3]))).status = 1
      ∧ ((slave true 0x10).1.readStream [7, 7] 2 (fun _ => 9)
          (0x00 :: ([0xA1, 0xA2] ++ [0xA3]))).rx = [0xA3]
      ∧ ((slave true 0x10).1.readStream [7, 7] 2 (fun _ => 9)
          (0x00 :: ([0xA1, 0xA2] ++ [0xA3]))).data.take 2 = [0xA1, 0xA2] :=
  ⟨by decide, by decide,
    (readStream_copies_behind_poll (slave true 0x10).1 [7, 7] 2 (fun _ => 9) 0x00
      [0xA1, 0xA2] [0xA3] (by decide) (by decide)).1,
    (readStream_copies_behind_poll (slave true 0x10).1 [7, 7] 2 (fun _ => 9) 0x00
      [0xA1, 0xA2] [0xA3] (by decide) (by decide)).2.1,
    (readStream_copies_behind_poll (slave true 0x10).1 [7, 7] 2 (fun _ => 9) 0x00
      [0xA1, 0xA2] [0xA3] (by decide) (by decide)).2.2.2.1 (by decide)⟩

/-- Claim C13 as stated fails on the code.  With power control enabled, a successful `read` and
a successful `readStream` perform the poll and `readBytes` and nothing else: the control line
is never written (no `digitalWrite(2, HIGH)` on entry, no `digitalWrite(2, LOW)` on exit) and
there is no settle delay. -/
theorem read_has_no_power_transition :
    ((slave true 0x10).1.read [0] 1 (fun _ => 0) [0x00, 0x55, 0x10, 0xAA, 0x54]).trace
        = [Event.Serial_read, Event.Serial_readBytes 4]
      ∧ ((slave true 0x10).1.readStream [0] 1 (fun _ => 0) [0x00, 0xAA]).trace
        = [Event.Serial_read, Event.Serial_readBytes 1]
      ∧ controlLine
          ((slave true 0x10).1.read [0] 1 (fun _ => 0) [0x00, 0x55, 0x10, 0xAA, 0x54]).trace
        = none
      ∧ Event.delayMicroseconds 20
          ∉ ((slave true 0x10).1.read [0] 1 (fun _ => 0) [0x00, 0x55, 0x10, 0xAA, 0x54]).trace
      ∧ controlLine ((slave true 0x10).1.readStream [0] 1 (fun _ => 0) [0x00, 0xAA]).trace
        = none
      ∧ Event.delayMicroseconds 20
          ∉ ((slave true 0x10).1.readStream [0] 1 (fun _ => 0) [0x00, 0xAA]).trace := by
  decide

/-- Claim C13, amended.  Whether power control is enabled or not, a public read call (`read`
and `readStream`) does not change the transceiver state, neither on entry nor on exit: its
only hardware calls are the poll `Serial.read()` and `Serial.readBytes`, so it writes no pin,
configures no pin and waits for no settle delay, and the control line keeps its level. -/
theorem read_leaves_transceiver_alone (self : lin_stack) (data : List Nat) (n : Nat)
    (garbage : Nat → Nat) (rx : List Nat) :
    (∀ e ∈ (self.read data n garbage rx).trace,
        e = Event.Serial_read ∨ ∃ k, e = Event.Serial_readBytes k)
      ∧ (∀ e ∈ (self.readStream data n garbage rx).trace,
        e = Event.Serial_read ∨ ∃ k, e = Event.Serial_readBytes k)
      ∧ (∀ pin level, Event.digitalWrite pin level ∉ (self.read data n garbage rx).trace)
      ∧ (∀ pin level, Event.digitalWrite pin level ∉ (self.readStream data n garbage rx).trace)
      ∧ (∀ us, Event.delayMicroseconds us ∉ (self.read data n garbage rx).trace)
      ∧ (∀ us, Event.delayMicroseconds us ∉ (self.readStream data n garbage rx).trace)
      ∧ (∀ pin mode, Event.pinMode pin mode ∉ (self.read data n garbage rx).trace)
      ∧ (∀ pin mode, Event.pinMode pin mode ∉ (self.readStream data n garbage rx).trace) := by
  refine ⟨read_trace_mem self data n garbage rx, readStream_trace_mem self data n garbage rx,
    ?_, ?_, ?_, ?_, ?_, ?_⟩
  · intro pin level hmem
    rcases read_trace_mem self data n garbage rx _ hmem with h | ⟨k, h⟩ <;> cases h
  · intro pin level hmem
    rcases readStream_trace_mem self data n garbage rx _ hmem with h | ⟨k, h⟩ <;> cases h
  · intro us hmem
    rcases read_trace_mem self data n garbage rx _ hmem with h | ⟨k, h⟩ <;> cases h
  · intro us hmem
    rcases readStream_trace_mem self data n garbage rx _ hmem with h | ⟨k, h⟩ <;> cases h
  · intro pin mode hmem
    rcases read_trace_mem self data n garbage rx _ hmem with h | ⟨k, h⟩ <;> cases h
  · intro pin mode hmem
    rcases readStream_trace_mem self data n garbage rx _ hmem with h | ⟨k, h⟩ <;> cases h

/-- Claim C14 (power controller).  With power control disabled `sleep(1)` and `sleep(0)` return
1 and perform nothing: no pin write, no delay.  With power control enabled `sleep(1)` writes
pin 2 high and `sleep(0)` writes it low, each then waits exactly 20 microseconds, and each
returns 1. -/
theorem sleep_power_control (ident : Nat) :
    (⟨false, ident⟩ : lin_stack).sleep 1 = (1, [])
      ∧ (⟨false, ident⟩ : lin_stack).sleep 0 = (1, [])
      ∧ (⟨true, ident⟩ : lin_stack).sleep 1
          = (1, [Event.digitalWrite 2 Level.HIGH, Event.delayMicroseconds 20])
      ∧ (⟨true, ident⟩ : lin_stack).sleep 0
          = (1, [Event.digitalWrite 2 Level.LOW, Event.delayMicroseconds 20]) :=
  ⟨rfl, rfl, rfl, rfl⟩

/-- Claim C15 (break duration).  For every requested bit count `serial_pause` returns 1 and
holds pin 1 low for `period * no_bits` microseconds with `period = 96`, the product being taken
in `unsigned int` arithmetic (modulo `UINT_MOD`); whenever the product fits, the hold is the
product itself; for the break length 13 of the framed writes it is `13 * 96 = 1248`, which
fits. -/
theorem serial_pause_hold (no_bits : Int) :
    serial_pause no_bits
        = (1, [Event.pinMode 1 PinMode.OUTPUT, Event.digitalWrite 1 Level.LOW,
               Event.delayMicroseconds ((96 * no_bits) % 65536).toNat,
               Event.digitalWrite 1 Level.HIGH, Event.pinMode 1 PinMode.INPUT])
      ∧ period = 96
      ∧ (0 ≤ no_bits → (period : Int) * no_bits < (UINT_MOD : Int) →
          (((96 * no_bits) % 65536).toNat : Int) = no_bits * (period : Int))
      ∧ serial_pause 13
        = (1, [Event.pinMode 1 PinMode.OUTPUT, Event.digitalWrite 1 Level.LOW,
               Event.delayMicroseconds 1248,
               Event.digitalWrite 1 Level.HIGH, Event.pinMode 1 PinMode.INPUT])
      ∧ 13 * period = 1248 ∧ 13 * period < UINT_MOD := by
  refine ⟨rfl, rfl, ?_, rfl, rfl, by decide⟩
  intro h0 h1
  have hp : ((period : Nat) : Int) = 96 := rfl
  have hu : ((UINT_MOD : Nat) : Int) = 65536 := rfl
  rw [hp] at h1 ⊢
  rw [hu] at h1
  omega

/-- Claim C16 (atomic failure).  For every slave identifier, size, receive queue (hence every
received window) and initial output buffer: when `read` returns -1 the output buffer is the
initial buffer, unchanged. -/
theorem read_failure_keeps_buffer (self : lin_stack) (data : List Nat) (n : Nat)
    (garbage : Nat → Nat) (rx : List Nat)
    (h : (self.read data n garbage rx).status = -1) :
    (self.read data n garbage rx).data = data :=
  read_data_of_status_ne_one self data n garbage rx (by rw [h]; decide)

/-- Witness for C16: slave `0x10`, window `[0x55, 0x10, 0xAA, 0x00]` with a wrong checksum, buffer
`[7]`. -/
theorem read_failure_keeps_buffer_witness :
    ((slave true 0x10).1.read [7] 1 (fun _ => 0) [0x00, 0x55, 0x10, 0xAA, 0x00]).status = -1
      ∧ ((slave true 0x10).1.read [7] 1 (fun _ => 0) [0x00, 0x55, 0x10, 0xAA, 0x00]).data = [7] :=
  ⟨by decide,
    read_failure_keeps_buffer (slave true 0x10).1 [7] 1 (fun _ => 0)
      [0x00, 0x55, 0x10, 0xAA, 0x00] (by decide)⟩

end lin_stack

/-! ## Cells of a modified window -/

theorem getD_set_ne (l : List Nat) (i j v : Nat) (h : i ≠ j) :
    (l.set i v).getD j 0 = l.getD j 0 := by
  rw [List.getD_eq_getElem?_getD, List.getD_eq_getElem?_getD, List.getElem?_set_ne h]

theorem getD_set_self (l : List Nat) (i v : Nat) (h : i < l.length) :
    (l.set i v).getD i 0 = v := by
  rw [List.getD_eq_getElem?_getD, List.getElem?_set_eq_of_lt v h]
  rfl

/-- Replacing one cell changes the sum by the difference of the two values. -/
theorem sum_set_add (l : List Nat) (j v : Nat) (h : j < l.length) :
    (l.set j v).sum + l.getD j 0 = l.sum + v := by
  induction l generalizing j with
  | nil => simp at h
  | cons x xs ih =>
    cases j with
    | zero =>
      simp only [List.set_cons_zero, List.sum_cons, List.getD_cons_zero]
      omega
    | succ j =>
      have hj : j < xs.length := by simpa using h
      simp only [List.set_cons_succ, List.sum_cons, List.getD_cons_succ]
      have := ih j hj
      omega

/-- The payload sum of a window after one payload cell was replaced. -/
theorem payload_sum_set (w : List Nat) (n i v : Nat) (hw : w.length = n + 3)
    (hi2 : 2 ≤ i) (hi : i < n + 2) :
    (((w.set i v).drop 2).take n).sum + w.getD i 0 = ((w.drop 2).take n).sum + v := by
  have h1 : ((w.set i v).drop 2).take n = ((w.drop 2).take n).set (i - 2) v := by
    rw [List.drop_set, if_neg (by omega), List.set_take]
  have hlen : i - 2 < ((w.drop 2).take n).length := by
    simp only [List.length_take, List.length_drop, hw]
    omega
  have h2 : ((w.drop 2).take n).getD (i - 2) 0 = w.getD i 0 := by
    rw [List.getD_eq_getElem?_getD, List.getD_eq_getElem?_getD, List.getElem?_take,
      if_pos (by omega), List.getElem?_drop]
    congr 2
    omega
  rw [h1, ← h2]
  exact sum_set_add _ _ _ hlen

namespace lin_stack

/-! ## The two checksum computations -/

theorem write_checksum_eq (p : List Nat) :
    write_checksum p p.length = 255 - (p.sum + 1) % 256 := by
  unfold write_checksum
  simp only [foldl_sum_range, Nat.mod_add_mod]

theorem v_checksum_window (w : List Nat) (n : Nat) (hn : n + 3 < UINT_MOD) :
    v_checksum w (n + 3) = 255 - (((w.drop 2).take n).sum + 1) % 256 := by
  have h1 : (n + 3) % UINT_MOD = n + 3 := Nat.mod_eq_of_lt hn
  have h2 : (n + 3 + UINT_MOD - 1) % UINT_MOD = n + 2 := by
    unfold UINT_MOD at *
    omega
  unfold v_checksum
  simp only [h1, h2, Nat.add_sub_cancel, foldl_sum_range']
  omega

/-- Method `validateChecksum` compares the cell `data[data_size-1]` with `v_checksum`. -/
theorem validateChecksum_eq_decide (data : List Nat) (data_size : Nat) :
    validateChecksum data data_size
      = decide (data.getD ((data_size % UINT_MOD + UINT_MOD - 1) % UINT_MOD) 0
          = v_checksum data data_size) := by
  unfold validateChecksum v_checksum
  dsimp only
  split
  · next h => rw [decide_eq_true h]
  · next h => rw [decide_eq_false h]

/-- Method `write` sends `write_checksum` as its last byte before `Serial.end`. -/
theorem write_sends_write_checksum (self : lin_stack) (ident : Nat) (data : List Nat)
    (data_size : Nat) :
    self.write ident data data_size
      = (1, (self.sleep 1).2 ++ (serial_pause 13).2
          ++ [Event.Serial_begin baud_rate, Event.Serial_write 0x55, Event.Serial_write ident]
          ++ (List.range (data_size % 256)).map (fun i => Event.Serial_write (data.getD i 0))
          ++ [Event.Serial_write (write_checksum data (data_size % 256)), Event.Serial_end]
          ++ (self.sleep 0).2) :=
  rfl


/-- Every event of a run of `Serial.write` calls between `Serial.begin` and `Serial.end` is a
transport event. -/
theorem mem_serial_body (baud : Nat) (first : List Nat) (k : Nat) (f : Nat → Nat)
    (last : List Nat) (e : Event)
    (he : e ∈ [Event.Serial_begin baud] ++ first.map Event.Serial_write
          ++ (List.range k).map (fun i => Event.Serial_write (f i))
          ++ last.map Event.Serial_write ++ [Event.Serial_end]) :
    e = Event.Serial_begin baud ∨ e = Event.Serial_end ∨ ∃ b, e = Event.Serial_write b := by
  simp only [List.mem_append, List.mem_map, List.mem_singleton] at he
  rcases he with (((h | ⟨x, _, h⟩) | ⟨x, _, h⟩) | ⟨x, _, h⟩) | h
  · exact Or.inl h
  · exact Or.inr (Or.inr ⟨_, h.symm⟩)
  · exact Or.inr (Or.inr ⟨_, h.symm⟩)
  · exact Or.inr (Or.inr ⟨_, h.symm⟩)
  · exact Or.inr (Or.inl h)

/-- Claim C12.  With power control enabled, each of `write`, `writeRequest`, `writeResponse` and
`writeStream` starts with `sleep(1)` (pin 2 high, then the 20 microsecond settle delay) and
ends with `sleep(0)` (pin 2 low, then the settle delay).  Everything else lies between the two:
the break `serial_pause(13)` of the three framed writes, then a body made of `Serial.begin`,
the `Serial.write` calls and `Serial.end` only.  The control line is low, the transceiver in
Sleep state, when the call returns. -/
theorem writes_bracketed_by_power_control (self : lin_stack) (ident : Nat) (data : List Nat)
    (data_size : Nat) (h : self.sleepEnable = true) :
    (∃ body, (self.write ident data data_size).2
          = [Event.digitalWrite 2 Level.HIGH, Event.delayMicroseconds 20]
              ++ (serial_pause 13).2 ++ body
              ++ [Event.digitalWrite 2 Level.LOW, Event.delayMicroseconds 20]
        ∧ ∀ e ∈ body, e = Event.Serial_begin baud_rate ∨ e = Event.Serial_end
            ∨ ∃ b, e = Event.Serial_write b)
      ∧ (∃ body, (self.writeRequest ident).2
          = [Event.digitalWrite 2 Level.HIGH, Event.delayMicroseconds 20]
              ++ (serial_pause 13).2 ++ body
              ++ [Event.digitalWrite 2 Level.LOW, Event.delayMicroseconds 20]
        ∧ ∀ e ∈ body, e = Event.Serial_begin baud_rate ∨ e = Event.Serial_end
            ∨ ∃ b, e = Event.Serial_write b)
      ∧ (∃ body, (self.writeResponse data data_size).2
          = [Event.digitalWrite 2 Level.HIGH, Event.delayMicroseconds 20]
              ++ body
              ++ [Event.digitalWrite 2 Level.LOW, Event.delayMicroseconds 20]
        ∧ ∀ e ∈ body, e = Event.Serial_begin baud_rate ∨ e = Event.Serial_end
            ∨ ∃ b, e = Event.Serial_write b)
      ∧ (∃ body, (self.writeStream data data_size).2
          = [Event.digitalWrite 2 Level.HIGH, Event.delayMicroseconds 20]
              ++ (serial_pause 13).2 ++ body
              ++ [Event.digitalWrite 2 Level.LOW, Event.delayMicroseconds 20]
        ∧ ∀ e ∈ body, e = Event.Serial_begin baud_rate ∨ e = Event.Serial_end
            ∨ ∃ b, e = Event.Serial_write b)
      ∧ controlLine (self.write ident data data_size).2 = some Level.LOW
      ∧ controlLine (self.writeRequest ident).2 = some Level.LOW
      ∧ controlLine (self.writeResponse data data_size).2 = some Level.LOW
      ∧ controlLine (self.writeStream data data_size).2 = some Level.LOW := by
  obtain ⟨h1, h0⟩ := sleep_enabled self h
  have e1 : (self.write ident data data_size).2
      = [Event.digitalWrite 2 Level.HIGH, Event.delayMicroseconds 20]
          ++ (serial_pause 13).2
          ++ ([Event.Serial_begin baud_rate] ++ [0x55, ident].map Event.Serial_write
              ++ (List.range (data_size % 256)).map (fun i => Event.Serial_write (data.getD i 0))
              ++ [write_checksum data (data_size % 256)].map Event.Serial_write
              ++ [Event.Serial_end])
          ++ [Event.digitalWrite 2 Level.LOW, Event.delayMicroseconds 20] := by
    rw [write_sends_write_checksum, h1, h0]
    simp
  have e2 : (self.writeRequest ident).2
      = [Event.digitalWrite 2 Level.HIGH, Event.delayMicroseconds 20]
          ++ (serial_pause 13).2
          ++ ([Event.Serial_begin baud_rate] ++ [0x55, ident].map Event.Serial_write
              ++ (List.range 0).map (fun i => Event.Serial_write (data.getD i 0))
              ++ ([] : List Nat).map Event.Serial_write
              ++ [Event.Serial_end])
          ++ [Event.digitalWrite 2 Level.LOW, Event.delayMicroseconds 20] := by
    rw [writeRequest_eq, h1, h0]
    simp
  have e3 : (self.writeResponse data data_size).2
      = [Event.digitalWrite 2 Level.HIGH, Event.delayMicroseconds 20]
          ++ ([Event.Serial_begin baud_rate] ++ ([] : List Nat).map Event.Serial_write
              ++ (List.range (data_size % UINT_MOD)).map
                  (fun i => Event.Serial_write (data.getD i 0))
              ++ [write_checksum data (data_size % UINT_MOD)].map Event.Serial_write
              ++ [Event.Serial_end])
          ++ [Event.digitalWrite 2 Level.LOW, Event.delayMicroseconds 20] := by
    unfold writeResponse write_checksum
    rw [h1, h0]
    simp
  have e4 : (self.writeStream data data_size).2
      = [Event.digitalWrite 2 Level.HIGH, Event.delayMicroseconds 20]
          ++ (serial_pause 13).2
          ++ ([Event.Serial_begin baud_rate] ++ ([] : List Nat).map Event.Serial_write
              ++ (List.range (data_size % UINT_MOD)).map
                  (fun i => Event.Serial_write (data.getD i 0))
              ++ ([] : List Nat).map Event.Serial_write
              ++ [Event.Serial_end])
          ++ [Event.digitalWrite 2 Level.LOW, Event.delayMicroseconds 20] := by
    unfold writeStream
    rw [h1, h0]
    simp
  refine ⟨⟨_, e1, fun e he => mem_serial_body _ _ _ _ _ e he⟩,
    ⟨_, e2, fun e he => mem_serial_body _ _ _ _ _ e he⟩,
    ⟨_, e3, fun e he => mem_serial_body _ _ _ _ _ e he⟩,
    ⟨_, e4, fun e he => mem_serial_body _ _ _ _ _ e he⟩, ?_, ?_, ?_, ?_⟩
  · rw [e1]
    exact controlLine_append_low _
  · rw [e2]
    exact controlLine_append_low _
  · rw [e3]
    exact controlLine_append_low _
  · rw [e4]
    exact controlLine_append_low _

/-- Witness for C12: a master with power control enabled writes `[1, 2, 3]` to `0x10`; the trace
is the one the theorem describes and the control line ends low. -/
theorem writes_bracketed_by_power_control_witness :
    (master true 0).1.sleepEnable = true
      ∧ controlLine ((master true 0).1.write 0x10 [1, 2, 3] 3).2 = some Level.LOW
      ∧ controlLine ((master true 0).1.writeRequest 0x10).2 = some Level.LOW
      ∧ controlLine ((master true 0).1.writeResponse [1, 2, 3] 3).2 = some Level.LOW
      ∧ controlLine ((master true 0).1.writeStream [1, 2, 3] 3).2 = some Level.LOW :=
  ⟨rfl, (writes_bracketed_by_power_control (master true 0).1 0x10 [1, 2, 3] 3 rfl).2.2.2.2⟩

/-- Claim C17.  The sync byte is never checked on receive: two complete windows that differ
only in cell 0 make `read` return the same status and the same output buffer (indeed the same
result altogether); in particular a window with any first byte, `0x55` or not, whose
identifier and checksum are correct is accepted. -/
theorem read_ignores_sync_byte (self : lin_stack) (data : List Nat) (n : Nat)
    (garbage : Nat → Nat) (b s1 s2 : Nat) (t rest : List Nat)
    (ht : t.length = n + 2) (hn : n + 3 < UINT_MOD) :
    (self.read data n garbage (b :: ((s1 :: t) ++ rest))).status
        = (self.read data n garbage (b :: ((s2 :: t) ++ rest))).status
      ∧ (self.read data n garbage (b :: ((s1 :: t) ++ rest))).data
        = (self.read data n garbage (b :: ((s2 :: t) ++ rest))).data
      ∧ self.read data n garbage (b :: ((s1 :: t) ++ rest))
        = self.read data n garbage (b :: ((s2 :: t) ++ rest))
      ∧ (∀ p : List Nat, t = self.identByte :: (p ++ [255 - (p.sum + 1) % 256]) →
          (self.read data n garbage (b :: ((s1 :: t) ++ rest))).status = 1) := by
  have hw1 : (s1 :: t).length = n + 3 := by simp [ht]
  have hw2 : (s2 :: t).length = n + 3 := by simp [ht]
  have heq : self.read data n garbage (b :: ((s1 :: t) ++ rest))
      = self.read data n garbage (b :: ((s2 :: t) ++ rest)) := by
    rw [read_window self data n garbage b (s1 :: t) rest hw1 hn,
      read_window self data n garbage b (s2 :: t) rest hw2 hn,
      validateChecksum_window (s1 :: t) n hn, validateChecksum_window (s2 :: t) n hn]
    rfl
  refine ⟨by rw [heq], by rw [heq], heq, ?_⟩
  intro p hp
  subst hp
  have hlen : n = p.length := by
    simp only [List.length_cons, List.length_append, List.length_nil] at ht
    omega
  subst hlen
  exact (read_frame self data garbage b s1 p rest hn).1

/-- Witness for C17: slave `0x10`, the windows `[0x55, 0x10, 0xAA, 0x54]` and
`[0x00, 0x10, 0xAA, 0x54]`; the second one is accepted. -/
theorem read_ignores_sync_byte_witness :
    ([0x10, 0xAA, 0x54] : List Nat).length = 1 + 2 ∧ 1 + 3 < UINT_MOD
      ∧ ((slave true 0x10).1.read [0] 1 (fun _ => 0)
          (0 :: ((0x00 :: [0x10, 0xAA, 0x54]) ++ []))).status = 1
      ∧ (slave true 0x10).1.read [0] 1 (fun _ => 0)
          (0 :: ((0x00 :: [0x10, 0xAA, 0x54]) ++ []))
        = (slave true 0x10).1.read [0] 1 (fun _ => 0)
          (0 :: ((0x55 :: [0x10, 0xAA, 0x54]) ++ [])) :=
  ⟨by decide, by decide,
    (read_ignores_sync_byte (slave true 0x10).1 [0] 1 (fun _ => 0) 0 0x00 0x55
      [0x10, 0xAA, 0x54] [] (by decide) (by decide)).2.2.2 [0xAA] (by decide),
    (read_ignores_sync_byte (slave true 0x10).1 [0] 1 (fun _ => 0) 0 0x00 0x55
      [0x10, 0xAA, 0x54] [] (by decide) (by decide)).2.2.1⟩

/-- Claim C18 (single-byte error detection).  Let `w` be a complete window of bytes that `read`
accepts.  Replacing exactly one cell among the payload cells and the checksum cell (index `i`
with `2 ≤ i ≤ n + 2`) by a different byte `v` gives a window that `read` rejects with -1. -/
theorem read_detects_single_byte_change (self : lin_stack) (data : List Nat) (n : Nat)
    (garbage : Nat → Nat) (b : Nat) (w rest : List Nat) (i v : Nat)
    (hw : w.length = n + 3) (hn : n + 3 < UINT_MOD)
    (hbytes : ∀ x ∈ w, x < 256) (hv : v < 256)
    (hi2 : 2 ≤ i) (hi : i ≤ n + 2) (hne : v ≠ w.getD i 0)
    (hacc : (self.read data n garbage (b :: (w ++ rest))).status = 1) :
    (self.read data n garbage (b :: (w.set i v ++ rest))).status = -1 := by
  have hw2 : (w.set i v).length = n + 3 := by rw [List.length_set, hw]
  obtain ⟨a1, _, _, _⟩ := read_window_status self data n garbage b w rest hw hn
  obtain ⟨b1, b2, _, _⟩ := read_window_status self data n garbage b (w.set i v) rest hw2 hn
  obtain ⟨_, hc⟩ := a1.mp hacc
  apply fun hx => (b2 hx).1
  intro h1
  obtain ⟨_, hc2⟩ := b1.mp h1
  have hil : i < w.length := by omega
  have hold : w.getD i 0 < 256 := by
    rw [List.getD_eq_getElem _ _ hil]
    exact hbytes _ (List.getElem_mem hil)
  by_cases hlast : i = n + 2
  · subst hlast
    rw [getD_set_self w (n + 2) v hil] at hc2
    have hs : ((w.set (n + 2) v).drop 2).take n = (w.drop 2).take n := by
      rw [List.drop_set, if_neg (by omega), List.set_take]
      exact List.set_eq_of_length_le (by simp only [List.length_take, List.length_drop, hw]; omega)
    rw [hs] at hc2
    exact hne (hc2.trans hc.symm)
  · have hlt : i < n + 2 := by omega
    rw [getD_set_ne w i (n + 2) v (by omega)] at hc2
    have hsum := payload_sum_set w n i v hw hi2 hlt
    omega

/-- Witness for C18: slave `0x10` accepts `[0x55, 0x10, 0xAA, 0x54]` and rejects
`[0x55, 0x10, 0xAB, 0x54]`, where the payload byte was changed. -/
theorem read_detects_single_byte_change_witness :
    ((slave true 0x10).1.read [0] 1 (fun _ => 0)
        (0 :: ([0x55, 0x10, 0xAA, 0x54] ++ []))).status = 1
      ∧ ((slave true 0x10).1.read [0] 1 (fun _ => 0)
        (0 :: (([0x55, 0x10, 0xAA, 0x54] : List Nat).set 2 0xAB ++ []))).status = -1 :=
  ⟨by decide,
    read_detects_single_byte_change (slave true 0x10).1 [0] 1 (fun _ => 0) 0
      [0x55, 0x10, 0xAA, 0x54] [] 2 0xAB (by decide) (by decide) (by decide) (by decide)
      (by decide) (by decide) (by decide) (by decide)⟩

/-- Claim C19.  The two checksum computations agree.  For every payload `p` that `write` can be
given, placed in a window `[s, X, p, c]`: the byte `write_checksum` that the sender computes
(8-bit sum, 8-bit increment, `255 -` that byte), which is the last byte `write` sends, equals
the byte `v_checksum` that `validateChecksum` computes over the window (8-bit sum, then
`255 - suma - 1` in `int`, stored in a byte), which is the byte `validateChecksum` compares
the trailing cell with; both are 255 when the payload sum is congruent to 255 modulo 256. -/
theorem checksum_computations_agree (self : lin_stack) (ident s X c : Nat) (p : List Nat)
    (hp : p.length < 256) :
    write_checksum p p.length = v_checksum (s :: X :: (p ++ [c])) (p.length + 3)
      ∧ (sent (self.write ident p p.length).2).getLast? = some (write_checksum p p.length)
      ∧ (validateChecksum (s :: X :: (p ++ [c])) (p.length + 3) = true
          ↔ c = v_checksum (s :: X :: (p ++ [c])) (p.length + 3))
      ∧ (p.sum % 256 = 255 →
          write_checksum p p.length = 255
            ∧ v_checksum (s :: X :: (p ++ [c])) (p.length + 3) = 255) := by
  have hn : p.length + 3 < UINT_MOD := by unfold UINT_MOD; omega
  obtain ⟨_, c2, c3, _⟩ := frame_cells s X p c
  have hv : v_checksum (s :: X :: (p ++ [c])) (p.length + 3) = 255 - (p.sum + 1) % 256 := by
    rw [v_checksum_window _ _ hn, c3]
  have hs : write_checksum p p.length = 255 - (p.sum + 1) % 256 := write_checksum_eq p
  refine ⟨by rw [hs, hv], ?_, ?_, ?_⟩
  · rw [sent_write self ident p hp, hs]
    have : 0x55 :: ident :: (p ++ [255 - (p.sum + 1) % 256])
        = (0x55 :: ident :: p) ++ [255 - (p.sum + 1) % 256] := by simp
    rw [this, List.getLast?_concat]
  · rw [validateChecksum_window _ _ hn, c2, c3, hv]
    exact decide_eq_true_iff
  · intro h255
    rw [hs, hv]
    omega

/-- Witness for C19: the payload `[0xFF]`, whose sum is 255: both computations give 255. -/
theorem checksum_computations_agree_witness :
    ([0xFF] : List Nat).length < 256
      ∧ write_checksum [0xFF] 1 = 255
      ∧ v_checksum [0x55, 0x10, 0xFF, 0xFF] 4 = 255 :=
  ⟨by decide,
    ((checksum_computations_agree (master true 0).1 0x10 0x55 0x10 0xFF [0xFF]
      (by decide)).2.2.2 (by decide)).1,
    ((checksum_computations_agree (master true 0).1 0x10 0x55 0x10 0xFF [0xFF]
      (by decide)).2.2.2 (by decide)).2⟩

end lin_stack
